import Mathlib

/-!
Shallow embedding of the order/prescription lifecycle engine of the
pharmacy-marketplace backend (medicineController.js, pharmacyController.js,
the Order/Medicine/Prescription mongoose schemas, and the Scheduler in
utils/logger.js), together with theorems settling the frozen claims about
its specification.

Conventions of the embedding:
* Mongo documents become Lean structures; the medicine collection becomes an
  association list `MedDb` keyed by `MedId`, with `findByIdAndUpdate`-style
  point updates.
* Machine integers are `Int`/`Nat` (JS numbers used here are integral).
* Timestamps are `Int` milliseconds; the wall clock is an explicit `now`
  argument.
* A controller that both mutates persisted state and sends an error response
  is modelled by an outcome record carrying the HTTP-level `response`
  together with the persisted end state (see `ConfirmOutcome`).
-/

namespace Pharma

abbrev MedId := Nat
abbrev PharmacyId := Nat
abbrev UserId := Nat

/-- Status enum of the Medicine schema (`active`/`inactive`/`discontinued`). -/
inductive MedStatus where
  | active
  | inactive
  | discontinued
deriving DecidableEq, Repr

/-- The fields of a Medicine document that the lifecycle engine reads or
writes: `pharmacy`, `price`, `discountedPrice`, `stock`, `status`.
`stock` is `Int` because the raw `$inc` update used by the controllers can
drive it below zero even though the schema declares `min: 0`. -/
structure Medicine where
  pharmacy : PharmacyId
  price : Int
  discountedPrice : Option Int
  stock : Int
  status : MedStatus
deriving DecidableEq, Repr

/-- The medicine collection: an association list from id to document. -/
abbrev MedDb := List (MedId × Medicine)

/-- Embeds `Medicine.findById`: the first record with the given id. -/
def dbFind : MedDb → MedId → Option Medicine
  | [], _ => none
  | kv :: rest, id => if kv.1 = id then some kv.2 else dbFind rest id

/-- Embeds `Medicine.findByIdAndUpdate`: applies `f` to the document with the given
id, if present; other documents are untouched. -/
def dbUpdate (db : MedDb) (id : MedId) (f : Medicine → Medicine) : MedDb :=
  db.map (fun kv => if kv.1 = id then (kv.1, f kv.2) else kv)

/-- JavaScript `a || b` on an optional number: `null` and `0` are falsy. -/
def jsOrElse (a : Option Int) (b : Int) : Int :=
  match a with
  | none => b
  | some x => if x = 0 then b else x

/-- Order status enum of the Order schema. -/
inductive OrderStatus where
  | cart
  | pending_approval
  | approved
  | rejected
  | payment_pending
  | paid
  | processing
  | ready_for_delivery
  | out_for_delivery
  | delivered
  | cancelled
  | refunded
deriving DecidableEq, Repr

/-- One entry of `order.items`: medicine reference, quantity, snapshotted
prices, and the cart tick-box `selected` flag. -/
structure OrderItem where
  medicine : MedId
  quantity : Nat
  price : Int
  discountedPrice : Option Int
  selected : Bool
deriving DecidableEq, Repr

/-- One entry of `order.timeline` (`addTimelineEvent`); the timestamp is
omitted as it never influences control flow. -/
structure TimelineEvent where
  status : OrderStatus
  note : String
deriving DecidableEq, Repr

/-- The `order.notes` sub-document. -/
structure OrderNotes where
  customerNote : Option String := none
  pharmacyNote : Option String := none
  systemNote : Option String := none
  cancellationNote : Option String := none
deriving DecidableEq, Repr

/-- The `order.approvalTimers` sub-document (end timestamps only; the start
timestamps never influence control flow). -/
structure ApprovalTimers where
  pharmacyApprovalEnd : Option Int := none
  customerConfirmationEnd : Option Int := none
deriving DecidableEq, Repr

/-- An Order document, restricted to the fields the lifecycle engine reads
or writes. -/
structure Order where
  customer : UserId
  pharmacy : PharmacyId
  items : List OrderItem
  prescription : Option Nat := none
  totalAmount : Int := 0
  discountedAmount : Int := 0
  deliveryCharge : Int := 0
  finalAmount : Int := 0
  status : OrderStatus := .cart
  approvalTimers : ApprovalTimers := {}
  notes : OrderNotes := {}
  timeline : List TimelineEvent := []
deriving DecidableEq, Repr

/-- Embeds `updateMedicineStock(items)` (medicineController.js 757-765): for each
selected item, `findByIdAndUpdate(item.medicine, { $inc: { stock: -item.quantity } })`.
There is no stock-sufficiency check on this path. -/
def updateMedicineStock (items : List OrderItem) (db : MedDb) : MedDb :=
  items.foldl
    (fun acc item =>
      if item.selected then
        dbUpdate acc item.medicine (fun m => { m with stock := m.stock - (item.quantity : Int) })
      else acc)
    db

/-- Embeds `restoreMedicineStock(items)` (medicineController.js 771-779): for each
selected item, `$inc: { stock: item.quantity }`. -/
def restoreMedicineStock (items : List OrderItem) (db : MedDb) : MedDb :=
  items.foldl
    (fun acc item =>
      if item.selected then
        dbUpdate acc item.medicine (fun m => { m with stock := m.stock + (item.quantity : Int) })
      else acc)
    db

/-- Embeds `medicineSchema.methods.updateStock(quantity)` (Medicine model 449-456):
mutates only when `stock + quantity >= 0`, returning `true`; otherwise leaves
the document unchanged and returns `false`. This guarded method exists but is
not called by the order-confirmation path. -/
def Medicine.updateStock (m : Medicine) (quantity : Int) : Medicine × Bool :=
  if m.stock + quantity ≥ 0 then ({ m with stock := m.stock + quantity }, true)
  else (m, false)

/-- Embeds `order.customerConfirmationTimeRemaining` virtual: milliseconds left on
the customer-confirmation window, clamped at 0; 0 when no window was set. -/
def customerConfirmationTimeRemaining (o : Order) (now : Int) : Int :=
  match o.approvalTimers.customerConfirmationEnd with
  | some e => max 0 (e - now)
  | none => 0

/-- Typed errors returned by `confirmOrder`. -/
inductive ConfirmError where
  | notFoundOrNotConfirmable
  | confirmationTimeExpired
deriving DecidableEq, Repr

/-- Result of a `confirmOrder` call: the HTTP-level response together with
the persisted end state of the order and of the medicine collection (the
controller can save state changes and still answer with an error). -/
structure ConfirmOutcome where
  response : Except ConfirmError Unit
  order : Order
  db : MedDb
deriving Repr

/-- Embeds `confirmOrder` (medicineController.js 654-689). The `findOne` filter
requires `status: 'approved'`. If the confirmation timer has run out the
order is set to `cancelled`, saved, and an error response is returned.
Otherwise the status becomes `processing`, a timeline event is appended, and
`updateMedicineStock` decrements stock of every selected item with no
sufficiency check. -/
def confirmOrder (o : Order) (now : Int) (db : MedDb) : ConfirmOutcome :=
  if o.status ≠ OrderStatus.approved then
    ⟨Except.error ConfirmError.notFoundOrNotConfirmable, o, db⟩
  else if customerConfirmationTimeRemaining o now ≤ 0 then
    ⟨Except.error ConfirmError.confirmationTimeExpired,
      { o with status := OrderStatus.cancelled }, db⟩
  else
    let o1 := { o with
      status := OrderStatus.processing,
      timeline := o.timeline ++ [⟨OrderStatus.processing, "Order confirmed by customer"⟩] }
    ⟨Except.ok (), o1, updateMedicineStock o1.items db⟩

/-- Typed errors returned by `cancelOrder`. -/
inductive CancelError where
  | notFound
  | notAuthorized
  | cannotCancelAtThisStage
deriving DecidableEq, Repr

/-- Result of a `cancelOrder` call, carrying the persisted end state. -/
structure CancelOutcome where
  response : Except CancelError Unit
  order : Order
  db : MedDb
deriving Repr

/-- The `cancellableStatuses` list of `cancelOrder`. -/
def cancellableStatuses : List OrderStatus :=
  [OrderStatus.pending_approval, OrderStatus.approved, OrderStatus.processing]

/-- Embeds `cancelOrder` (medicineController.js 696-737). Faithful to the source
order of statements: the status is overwritten with `'cancelled'` and the
timeline event appended BEFORE the `order.status === 'processing'` test that
guards `restoreMedicineStock`, so that test reads the already-overwritten
status. -/
def cancelOrder (o : Order) (reason : String) (db : MedDb) : CancelOutcome :=
  if o.status ∈ cancellableStatuses then
    let o1 := { o with
      status := OrderStatus.cancelled,
      notes := { o.notes with cancellationNote := some reason },
      timeline := o.timeline ++ [⟨OrderStatus.cancelled, reason⟩] }
    let db1 := if o1.status = OrderStatus.processing then restoreMedicineStock o1.items db else db
    ⟨Except.ok (), o1, db1⟩
  else
    ⟨Except.error CancelError.cannotCancelAtThisStage, o, db⟩

/-- Typed errors thrown or returned by `createOrder`. -/
inductive CreateOrderError where
  | pharmacyNotFoundOrInactive
  | deliverySlotUnavailable
  | medicineNotFound (id : MedId)
  | notFromSelectedPharmacy (id : MedId)
  | insufficientStock (id : MedId)
deriving DecidableEq, Repr

/-- The item-validation loop of `createOrder` (medicineController.js 465-490):
every medicine must exist, belong to the selected pharmacy, and have
`stock >= quantity` (a read of the current stock, no mutation); it builds the
snapshot items (always `selected: true`) and accumulates
`totalAmount += price * quantity` and
`discountedAmount += (discountedPrice || price) * quantity`. -/
def validateItems (db : MedDb) (pharmacyId : PharmacyId) :
    List (MedId × Nat) → Except CreateOrderError (List OrderItem × Int × Int)
  | [] => Except.ok ([], 0, 0)
  | (mid, qty) :: rest =>
    match dbFind db mid with
    | none => Except.error (CreateOrderError.medicineNotFound mid)
    | some m =>
      if m.pharmacy ≠ pharmacyId then
        Except.error (CreateOrderError.notFromSelectedPharmacy mid)
      else if m.stock < (qty : Int) then
        Except.error (CreateOrderError.insufficientStock mid)
      else
        match validateItems db pharmacyId rest with
        | Except.error e => Except.error e
        | Except.ok (items, t, d) =>
          Except.ok (⟨mid, qty, m.price, m.discountedPrice, true⟩ :: items,
            m.price * (qty : Int) + t,
            jsOrElse m.discountedPrice m.price * (qty : Int) + d)

/-- Embeds `calculateDeliveryCharge` (medicineController.js 744-748): free above 500,
else a flat base charge of 50. The delivery address is unused by the source
formula. -/
def calculateDeliveryCharge (orderAmount : Int) : Int :=
  if orderAmount > 500 then 0 else 50

/-- The pharmacy-approval window: 10 minutes in milliseconds
(`startPharmacyApprovalTimer`, Order model 203-207). -/
def pharmacyApprovalWindowMs : Int := 10 * 60 * 1000

/-- Embeds `createOrder` (medicineController.js 433-536). `pharmacyOk` stands for
the out-of-scope `Pharmacy.findOne({status:'active',verificationStatus:'verified'})`
lookup and `slotOk` for `isDeliverySlotAvailable`; both checks happen before
any mutation. The order's status is `pending_approval` exactly when a
prescription reference is supplied, else `approved`; when NO prescription is
supplied the controller immediately calls `updateMedicineStock` on the new
order's items. A `pending_approval` order gets its 10-minute pharmacy
approval timer, and a timeline event `'Order created'` is appended. -/
def createOrder (pharmacyOk slotOk : Bool) (customerId : UserId)
    (pharmacyId : PharmacyId) (reqs : List (MedId × Nat))
    (prescription : Option Nat) (now : Int) (db : MedDb) :
    Except CreateOrderError (Order × MedDb) :=
  if ¬pharmacyOk then Except.error CreateOrderError.pharmacyNotFoundOrInactive
  else if ¬slotOk then Except.error CreateOrderError.deliverySlotUnavailable
  else
    match validateItems db pharmacyId reqs with
    | Except.error e => Except.error e
    | Except.ok (items, totalAmount, discountedAmount) =>
      let deliveryCharge := calculateDeliveryCharge totalAmount
      let status := if prescription.isSome then OrderStatus.pending_approval
                    else OrderStatus.approved
      let o : Order := {
        customer := customerId,
        pharmacy := pharmacyId,
        items := items,
        prescription := prescription,
        totalAmount := totalAmount,
        discountedAmount := discountedAmount,
        deliveryCharge := deliveryCharge,
        finalAmount := discountedAmount + deliveryCharge,
        status := status }
      let db1 := if prescription.isNone then updateMedicineStock o.items db else db
      let o1 := if o.status = OrderStatus.pending_approval then
          { o with approvalTimers :=
              { o.approvalTimers with pharmacyApprovalEnd := some (now + pharmacyApprovalWindowMs) } }
        else o
      let o2 := { o1 with timeline := o1.timeline ++ [⟨o1.status, "Order created"⟩] }
      Except.ok (o2, db1)

/-- Embeds `orderSchema.methods.calculateAmounts` (Order model 236-254): totals over
the selected items; `discountedAmount` accumulates only items whose
`discountedPrice` is truthy and falls back to `totalAmount` when the
accumulator is 0 (JS `discountedAmount || totalAmount`);
`finalAmount = discountedAmount + deliveryCharge`. -/
def calculateAmounts (o : Order) : Order :=
  let totalAmount : Int := o.items.foldl
    (fun t i => if i.selected then t + i.price * (i.quantity : Int) else t) 0
  let discountedRaw : Int := o.items.foldl
    (fun d i =>
      if i.selected then
        match i.discountedPrice with
        | some dp => if dp = 0 then d else d + dp * (i.quantity : Int)
        | none => d
      else d) 0
  let discountedAmount := if discountedRaw = 0 then totalAmount else discountedRaw
  { o with totalAmount := totalAmount, discountedAmount := discountedAmount,
           finalAmount := discountedAmount + o.deliveryCharge }

/-- Typed errors returned by `addToCart`. -/
inductive AddToCartError where
  | medicineNotFoundOrInsufficientStock
  | differentPharmacy
deriving DecidableEq, Repr

/-- The find-or-create step of `addToCart`: an existing cart is reused; a
missing cart is created against the medicine's pharmacy with empty items. -/
def resolveCart (existingCart : Option Order) (customerId : UserId)
    (ph : PharmacyId) : Order :=
  match existingCart with
  | some c => c
  | none => { customer := customerId, pharmacy := ph,
              items := [], status := OrderStatus.cart }

/-- The tail of `addToCart` after the medicine lookup and the find-or-create
step: the same-pharmacy check, the add-or-bump of the item, and the amount
recalculation. -/
def addToCartCore (cart : Order) (m : Medicine) (medicineId : MedId)
    (qty : Nat) : Except AddToCartError Order :=
  if cart.pharmacy ≠ m.pharmacy then
    Except.error AddToCartError.differentPharmacy
  else
    let items1 := if cart.items.any (fun i => i.medicine == medicineId) then
        cart.items.map (fun i =>
          if i.medicine = medicineId then { i with quantity := i.quantity + qty } else i)
      else cart.items ++ [⟨medicineId, qty, m.price, m.discountedPrice, true⟩]
    Except.ok (calculateAmounts { cart with items := items1 })

/-- Embeds `addToCart` (medicineController.js 344-405). The `findOne` filter
requires an `active` medicine with `stock >= quantity` (read-only check). A
missing cart is created against the medicine's pharmacy; an existing cart
must belong to the same pharmacy as the medicine or the call fails with
`'Cannot add items from different pharmacies'`. An item already present has
its quantity increased, otherwise a snapshot item is pushed (`selected`
defaults to true); finally `calculateAmounts` is re-run. -/
def addToCart (existingCart : Option Order) (customerId : UserId)
    (medicineId : MedId) (qty : Nat) (db : MedDb) : Except AddToCartError Order :=
  match dbFind db medicineId with
  | none => Except.error AddToCartError.medicineNotFoundOrInsufficientStock
  | some m =>
    if m.status ≠ MedStatus.active ∨ m.stock < (qty : Int) then
      Except.error AddToCartError.medicineNotFoundOrInsufficientStock
    else
      addToCartCore (resolveCart existingCart customerId m.pharmacy) m medicineId qty

/-- One entry of the `items` array accepted by `updateCart`: the position of
the targeted cart item, the new `selected` flag, and an optional new
quantity. -/
structure CartItemUpdate where
  idx : Nat
  selected : Bool
  quantity : Option Nat
deriving DecidableEq, Repr

/-- Point update of the item at a given position. -/
def modifyItem : List OrderItem → Nat → (OrderItem → OrderItem) → List OrderItem
  | [], _, _ => []
  | i :: is, 0, f => f i :: is
  | i :: is, n + 1, f => i :: modifyItem is n f

/-- Typed error returned by `updateCart`. -/
inductive UpdateCartError where
  | cartNotFound
deriving DecidableEq, Repr

/-- Embeds `updateCart` (medicineController.js 609-646): legal only on a `cart`
order; each update rewrites the targeted item's `selected` flag and, when a
quantity is supplied, its quantity; the medicine reference and price
snapshot are untouched; amounts are then recalculated. -/
def updateCart (o : Order) (updates : List CartItemUpdate) :
    Except UpdateCartError Order :=
  if o.status ≠ OrderStatus.cart then Except.error UpdateCartError.cartNotFound
  else
    let items1 := updates.foldl
      (fun its u => modifyItem its u.idx
        (fun i => { i with selected := u.selected,
                           quantity := u.quantity.getD i.quantity }))
      o.items
    Except.ok (calculateAmounts { o with items := items1 })

/-- Embeds `validTransitions` of `updateOrderStatus` (pharmacyController.js 237-243);
a status absent from the table (JS optional chaining `?.includes`) allows no
transition. -/
def validTransitions : OrderStatus → List OrderStatus
  | OrderStatus.pending_approval => [OrderStatus.approved, OrderStatus.rejected]
  | OrderStatus.approved => [OrderStatus.processing, OrderStatus.cancelled]
  | OrderStatus.processing => [OrderStatus.ready_for_delivery, OrderStatus.cancelled]
  | OrderStatus.ready_for_delivery => [OrderStatus.out_for_delivery, OrderStatus.cancelled]
  | OrderStatus.out_for_delivery => [OrderStatus.delivered, OrderStatus.cancelled]
  | _ => []

/-- Typed errors returned by `updateOrderStatus`. -/
inductive UpdateStatusError where
  | orderNotFound
  | invalidStatusTransition
deriving DecidableEq, Repr

/-- Embeds `updateOrderStatus` (pharmacyController.js 222-273), the pharmacy's
approve/reject/progress endpoint: validates the transition against
`validTransitions`, sets the status, stores a pharmacy note when supplied,
and appends a timeline event. It performs no scheduler interaction and no
inventory mutation, and never touches `approvalTimers`. -/
def updateOrderStatus (o : Order) (newStatus : OrderStatus)
    (note : Option String) : Except UpdateStatusError Order :=
  if newStatus ∈ validTransitions o.status then
    Except.ok { o with
      status := newStatus,
      notes := match note with
        | some n => { o.notes with pharmacyNote := some n }
        | none => o.notes,
      timeline := o.timeline ++ [⟨newStatus, note.getD ""⟩] }
  else
    Except.error UpdateStatusError.invalidStatusTransition

/-- The body of the `scheduleOrderTimeout` job callback (logger.js 309-321):
re-reads the order; only when it is still `pending_approval` does it set
`status='cancelled'` and `notes.systemNote='Order auto-cancelled due to timeout'`
and save. No timeline entry is appended. Any other status leaves the order
untouched. -/
def orderTimeoutCallback (o : Order) : Order :=
  if o.status = OrderStatus.pending_approval then
    { o with status := OrderStatus.cancelled,
             notes := { o.notes with systemNote := some "Order auto-cancelled due to timeout" } }
  else o

/-- Result of `restoreOrderTimers`: the order ids whose timeout job was
re-armed in memory, and the order ids whose callback was fired immediately
during recovery. -/
structure RecoveryResult where
  armed : List Nat
  firedNow : List Nat
deriving DecidableEq, Repr

/-- Embeds `Scheduler.restoreOrderTimers` (logger.js 280-293): queries orders with
`status in ['pending_approval','approved']` and
`approvalTimers.pharmacyApprovalEnd > now`, and schedules a timeout job for
each. The source has no immediate-fire path for already-passed deadlines, so
`firedNow` is always empty. -/
def restoreOrderTimers (orders : List (Nat × Order)) (now : Int) : RecoveryResult :=
  let pending := orders.filter (fun kv =>
    (decide (kv.2.status = OrderStatus.pending_approval) ||
     decide (kv.2.status = OrderStatus.approved)) &&
    (match kv.2.approvalTimers.pharmacyApprovalEnd with
     | some e => decide (e > now)
     | none => false))
  ⟨pending.map (fun kv => kv.1), []⟩

/-- Recurring-prescription frequency enum. -/
inductive Frequency where
  | daily
  | weekly
  | monthly
  | quarterly
deriving DecidableEq, Repr

/-- A calendar date in JS `Date` component form: arbitrary year, 0-based
month index `0..11`, 1-based day of month. -/
structure JDate where
  year : Int
  month : Nat
  day : Nat
deriving DecidableEq, Repr

/-- Gregorian leap-year rule, as implemented by JS `Date`. -/
def isLeapYear (y : Int) : Bool :=
  (y % 4 == 0 && y % 100 != 0) || y % 400 == 0

/-- Length of the 0-based month `m` of year `y`. -/
def daysInMonth (y : Int) (m : Nat) : Nat :=
  if m = 1 then (if isLeapYear y then 29 else 28)
  else if m = 3 ∨ m = 5 ∨ m = 8 ∨ m = 10 then 30
  else 31

/-- The calendar successor of a date (day rollover of JS `setDate(d+1)`). -/
def nextCalendarDay (d : JDate) : JDate :=
  if d.day < daysInMonth d.year d.month then { d with day := d.day + 1 }
  else if d.month < 11 then ⟨d.year, d.month + 1, 1⟩
  else ⟨d.year + 1, 0, 1⟩

/-- JS `setDate(getDate() + k)` for `k ≥ 0`: add `k` calendar days. -/
def addCalendarDays (d : JDate) : Nat → JDate
  | 0 => d
  | k + 1 => addCalendarDays (nextCalendarDay d) k

/-- JS `setMonth(getMonth() + k)` for `k ≥ 0`: move the month index (year
carry), keep the day of month, then normalize a day overflowing the target
month into the following month (e.g. Jan 31 + 1 month = Mar 3). The excess
is at most 3, so a single rollover step suffices for day ≤ 31. -/
def addCalendarMonths (d : JDate) (k : Nat) : JDate :=
  let t := d.month + k
  let y := d.year + ((t / 12 : Nat) : Int)
  let m := t % 12
  if d.day > daysInMonth y m then
    let excess := d.day - daysInMonth y m
    if m < 11 then ⟨y, m + 1, excess⟩ else ⟨y + 1, 0, excess⟩
  else ⟨y, m, d.day⟩

/-- JS `Date` comparison `a <= b` on normalized component dates
(lexicographic on year, month, day). -/
def JDate.le (a b : JDate) : Bool :=
  if a.year < b.year then true
  else if b.year < a.year then false
  else if a.month < b.month then true
  else if b.month < a.month then false
  else decide (a.day ≤ b.day)

/-- The `recurringDetails` sub-document of a Prescription. -/
structure RecurringDetails where
  frequency : Frequency
  nextRefillDate : JDate
  remainingRefills : Nat
deriving DecidableEq, Repr

/-- A Prescription document, restricted to the refill fields the lifecycle
engine reads or writes. -/
structure Prescription where
  isRecurring : Bool
  recurringDetails : RecurringDetails
deriving DecidableEq, Repr

/-- Embeds `prescriptionSchema.methods.checkRefillStatus` (Prescription.js 232-239):
`isRecurring && remainingRefills > 0 && today >= nextRefillDate`. -/
def checkRefillStatus (p : Prescription) (today : JDate) : Bool :=
  if p.isRecurring ∧ p.recurringDetails.remainingRefills > 0 then
    JDate.le p.recurringDetails.nextRefillDate today
  else false

/-- The `switch (frequency)` of `processRefill` (Prescription.js 249-263):
daily/weekly via `setDate`, monthly/quarterly via `setMonth`. -/
def advanceNextRefillDate (f : Frequency) (d : JDate) : JDate :=
  match f with
  | Frequency.daily => addCalendarDays d 1
  | Frequency.weekly => addCalendarDays d 7
  | Frequency.monthly => addCalendarMonths d 1
  | Frequency.quarterly => addCalendarMonths d 3

/-- Embeds `prescriptionSchema.methods.processRefill` (Prescription.js 242-268):
when `checkRefillStatus` holds, decrements `remainingRefills` by one and
advances `nextRefillDate` by the configured frequency; otherwise returns
`false` (modelled as `none`) and changes nothing. -/
def processRefill (p : Prescription) (today : JDate) : Option Prescription :=
  if checkRefillStatus p today then
    some { p with recurringDetails := {
      frequency := p.recurringDetails.frequency,
      nextRefillDate :=
        advanceNextRefillDate p.recurringDetails.frequency p.recurringDetails.nextRefillDate,
      remainingRefills := p.recurringDetails.remainingRefills - 1 } }
  else none

/-- Typed errors returned by the `requestRefill` controller. -/
inductive RefillError where
  | prescriptionNotFound
  | notEligibleForRefill
deriving DecidableEq, Repr

/-- The `requestRefill` controller (prescriptionController): rejects with
`'Prescription is not eligible for refill'` when `!isRecurring || !checkRefillStatus()`,
otherwise calls `processRefill` (whose return value it ignores; the document
mutation is kept). -/
def requestRefill (p : Prescription) (today : JDate) : Except RefillError Prescription :=
  if !p.isRecurring || !checkRefillStatus p today then
    Except.error RefillError.notEligibleForRefill
  else
    Except.ok ((processRefill p today).getD p)

/-- The prescription state after one `processRefill` attempt (unchanged when
ineligible). -/
def refillStep (p : Prescription) (today : JDate) : Prescription :=
  (processRefill p today).getD p

/-- Folds `requestRefill` over a list of call dates, stopping at the first
error. -/
def applyRefills (p : Prescription) : List JDate → Except RefillError Prescription
  | [] => Except.ok p
  | d :: ds =>
    match requestRefill p d with
    | Except.ok q => applyRefills q ds
    | Except.error e => Except.error e

/-- Each date in the list finds the (evolving) prescription refill-eligible. -/
def datesEligible (p : Prescription) : List JDate → Bool
  | [] => true
  | d :: ds => checkRefillStatus p d && datesEligible (refillStep p d) ds

section Fixtures

/-- A sample active medicine of pharmacy 1 with one unit in stock. -/
def medSample : Medicine :=
  { pharmacy := 1, price := 100, discountedPrice := none, stock := 1,
    status := MedStatus.active }

/-- A one-medicine inventory. -/
def dbSample : MedDb := [(1, medSample)]

/-- A selected order item asking for two units of medicine 1. -/
def itemSample : OrderItem :=
  { medicine := 1, quantity := 2, price := 100, discountedPrice := none, selected := true }

/-- An order in `approved` whose customer-confirmation window ends at t=1000. -/
def approvedOrder : Order :=
  { customer := 7, pharmacy := 1, items := [itemSample],
    status := OrderStatus.approved,
    approvalTimers := { pharmacyApprovalEnd := none, customerConfirmationEnd := some 1000 } }

/-- An order in `processing` (stock was reserved at confirm). -/
def processingOrder : Order :=
  { customer := 7, pharmacy := 1, items := [itemSample], status := OrderStatus.processing }

/-- An already-cancelled order. -/
def cancelledOrder : Order :=
  { customer := 7, pharmacy := 1, items := [itemSample], status := OrderStatus.cancelled }

/-- An order in `pending_approval` with an armed pharmacy-approval deadline. -/
def pendingOrder : Order :=
  { customer := 7, pharmacy := 1, items := [itemSample],
    status := OrderStatus.pending_approval,
    approvalTimers := { pharmacyApprovalEnd := some 5, customerConfirmationEnd := none } }

/-- The inventory with three units of medicine 1. -/
def dbStock3 : MedDb := [(1, { medSample with stock := 3 })]

/-- The inventory with five units of medicine 1. -/
def dbStock5 : MedDb := [(1, { medSample with stock := 5 })]

end Fixtures

/-- C1. The claim says the per-item decrement at confirm fails with
`InsufficientStock` when `stock < quantity` and never leaves stock negative.
The confirm path instead calls `updateMedicineStock`, a raw `$inc` with no
check: confirming an approved order for 2 units with only 1 in stock
succeeds and leaves `stock = -1`, although the Medicine schema itself
declares `min: 0` and its guarded `updateStock` method would have refused
(`updateStock(-2)` returns `false` and mutates nothing). -/
theorem C1_confirm_drives_stock_negative :
    medSample.stock < (itemSample.quantity : Int) ∧
    (confirmOrder approvedOrder 0 dbSample).response = Except.ok () ∧
    dbFind (confirmOrder approvedOrder 0 dbSample).db 1 =
      some { medSample with stock := -1 } ∧
    Medicine.updateStock medSample (-(2 : Int)) = (medSample, false) :=
  ⟨by decide, rfl, by decide, by decide⟩

/-- C2 counterexample. The claim says a failing `confirm()` leaves the order
in `approved`. Confirming `approvedOrder` (window closed at t=1000) at
t=2000 returns the expired error, yet the saved order has been moved to
`cancelled`, not left in `approved`. -/
theorem C2_counterexample :
    (confirmOrder approvedOrder 2000 dbSample).response =
      Except.error ConfirmError.confirmationTimeExpired ∧
    (confirmOrder approvedOrder 2000 dbSample).order.status = OrderStatus.cancelled ∧
    (confirmOrder approvedOrder 2000 dbSample).order.status ≠ OrderStatus.approved :=
  ⟨rfl, rfl, by decide⟩

/-- C2 amended: from `approved`, a confirm after the window has closed fails
AND transitions the saved order to `cancelled` (stock untouched); while the
window is open, confirm always succeeds — there is no stock-sufficiency
check, so `InsufficientStock` cannot occur — moving the order to
`processing` and unconditionally decrementing every selected item's stock. -/
theorem C2_amended (o : Order) (now : Int) (db : MedDb)
    (h : o.status = OrderStatus.approved) :
    (customerConfirmationTimeRemaining o now ≤ 0 →
      confirmOrder o now db =
        ⟨Except.error ConfirmError.confirmationTimeExpired,
         { o with status := OrderStatus.cancelled }, db⟩) ∧
    (0 < customerConfirmationTimeRemaining o now →
      confirmOrder o now db =
        ⟨Except.ok (),
         { o with
             status := OrderStatus.processing,
             timeline := o.timeline ++
               [⟨OrderStatus.processing, "Order confirmed by customer"⟩] },
         updateMedicineStock o.items db⟩) := by
  constructor
  · intro hrem
    simp only [confirmOrder, h]
    rw [if_neg (by simp), if_pos hrem]
  · intro hrem
    simp only [confirmOrder, h]
    rw [if_neg (by simp), if_neg (by omega)]

/-- C2 amended, witness at the concrete expired confirm. -/
theorem C2_amended_witness :
    confirmOrder approvedOrder 2000 dbSample =
      ⟨Except.error ConfirmError.confirmationTimeExpired,
       { approvedOrder with status := OrderStatus.cancelled }, dbSample⟩ :=
  (C2_amended approvedOrder 2000 dbSample rfl).1 (by decide)

/-- C3. The claim says cancelling from `processing` restores the reserved
quantities. In `cancelOrder` the status is overwritten with `'cancelled'`
before the `order.status === 'processing'` test, so the
`restoreMedicineStock` branch is unreachable: for EVERY order the medicine
collection is returned unchanged. Concretely, cancelling `processingOrder`
(2 reserved units of medicine 1) against a stock of 3 succeeds but leaves
the stock at 3, while the restoration the repository's own test expects
(`tests/controllers/order.test.js`, "should restore medicine stock on
cancellation") would have produced 5. -/
theorem C3_cancel_restores_nothing :
    (∀ (o : Order) (reason : String) (db : MedDb), (cancelOrder o reason db).db = db) ∧
    (cancelOrder processingOrder "Changed my mind" dbStock3).response = Except.ok () ∧
    (cancelOrder processingOrder "Changed my mind" dbStock3).order.status =
      OrderStatus.cancelled ∧
    (cancelOrder processingOrder "Changed my mind" dbStock3).db = dbStock3 ∧
    restoreMedicineStock processingOrder.items dbStock3 =
      [(1, { medSample with stock := 5 })] := by
  refine ⟨?_, rfl, by decide, by decide, by decide⟩
  intro o reason db
  unfold cancelOrder
  split
  · rfl
  · rfl

/-- C4 counterexample. The claim says cancelling an already-cancelled order
is a no-op that succeeds; the controller instead rejects it because
`'cancelled'` is not in `cancellableStatuses`. -/
theorem C4_counterexample :
    (cancelOrder cancelledOrder "again" dbSample).response =
      Except.error CancelError.cannotCancelAtThisStage := rfl

/-- C4 amended: cancelling an already-cancelled order is rejected with the
`'Order cannot be cancelled at this stage'` error rather than succeeding as
a no-op; the order does remain in `cancelled` and no stock is released a
second time (the whole state is returned unchanged). -/
theorem C4_amended (o : Order) (reason : String) (db : MedDb)
    (h : o.status = OrderStatus.cancelled) :
    cancelOrder o reason db =
      ⟨Except.error CancelError.cannotCancelAtThisStage, o, db⟩ := by
  unfold cancelOrder
  rw [if_neg]
  rw [h]
  decide

/-- C4 amended, witness at the concrete double cancel. -/
theorem C4_amended_witness :
    cancelOrder cancelledOrder "again" dbSample =
      ⟨Except.error CancelError.cannotCancelAtThisStage, cancelledOrder, dbSample⟩ :=
  C4_amended cancelledOrder "again" dbSample rfl

/-- Destructuring lemma for a successful `createOrder`: the order is built
for the requested pharmacy and prescription, its status follows the
prescription branch, the medicine collection is decremented exactly when no
prescription is attached, and the items/amounts are those produced by the
validation loop. -/
theorem createOrder_ok_spec (pharmacyOk slotOk : Bool) (cust : UserId)
    (ph : PharmacyId) (reqs : List (MedId × Nat)) (presc : Option Nat)
    (now : Int) (db : MedDb) (o : Order) (db' : MedDb)
    (h : createOrder pharmacyOk slotOk cust ph reqs presc now db =
      Except.ok (o, db')) :
    o.pharmacy = ph ∧ o.prescription = presc ∧
    o.status = (if presc.isSome then OrderStatus.pending_approval
                else OrderStatus.approved) ∧
    db' = (if presc.isSome then db else updateMedicineStock o.items db) ∧
    validateItems db ph reqs =
      Except.ok (o.items, o.totalAmount, o.discountedAmount) := by
  unfold createOrder at h
  by_cases h1 : pharmacyOk
  · by_cases h2 : slotOk
    · simp only [h1, h2, not_true_eq_false, if_false] at h
      cases hv : validateItems db ph reqs with
      | error e => rw [hv] at h; exact absurd h (by simp)
      | ok tri =>
        obtain ⟨items, t, d⟩ := tri
        rw [hv] at h
        simp only [Except.ok.injEq, Prod.mk.injEq] at h
        obtain ⟨ho, hdb⟩ := h
        cases presc with
        | none => subst ho; subst hdb; simp [hv]
        | some pr => subst ho; subst hdb; simp [hv]
    · simp [h1, h2] at h
  · simp [h1] at h

/-- C5 counterexample. The claim says checkout's stock validation is
read-only and reservation is deferred to confirm. A checkout of 2 units with
no prescription succeeds into `approved` AND immediately decrements the
medicine's stock from 5 to 3. -/
theorem C5_counterexample :
    (createOrder true true 7 1 [(1, 2)] none 0 dbStock5).map
        (fun r => (r.1.status, dbFind r.2 1)) =
      Except.ok (OrderStatus.approved, some { medSample with stock := 3 }) := rfl

/-- C5 amended: checkout moves the order to `pending_approval` exactly when a
prescription is attached and to `approved` when none is; but the
stock-sufficiency validation is read-only ONLY on the prescription branch —
when no prescription is attached, checkout itself immediately decrements
every item's stock via `updateMedicineStock` instead of deferring
reservation to confirm. -/
theorem C5_amended (pharmacyOk slotOk : Bool) (cust : UserId)
    (ph : PharmacyId) (reqs : List (MedId × Nat)) (presc : Option Nat)
    (now : Int) (db : MedDb) (o : Order) (db' : MedDb)
    (h : createOrder pharmacyOk slotOk cust ph reqs presc now db =
      Except.ok (o, db')) :
    o.status = (if presc.isSome then OrderStatus.pending_approval
                else OrderStatus.approved) ∧
    db' = (if presc.isSome then db else updateMedicineStock o.items db) ∧
    o.prescription = presc := by
  obtain ⟨-, hp, hs, hdb, -⟩ :=
    createOrder_ok_spec pharmacyOk slotOk cust ph reqs presc now db o db' h
  exact ⟨hs, hdb, hp⟩

/-- The concrete order produced by the C5 witness checkout. -/
def c5Order : Order :=
  { customer := 7, pharmacy := 1, items := [itemSample], prescription := none,
    totalAmount := 200, discountedAmount := 200, deliveryCharge := 50,
    finalAmount := 250, status := OrderStatus.approved,
    timeline := [⟨OrderStatus.approved, "Order created"⟩] }

/-- C5 amended, witness at a concrete no-prescription checkout. -/
theorem C5_amended_witness :
    c5Order.status = (if (none : Option Nat).isSome then OrderStatus.pending_approval
                else OrderStatus.approved) ∧
    [(1, { medSample with stock := 3 })] =
      (if (none : Option Nat).isSome then dbStock5
       else updateMedicineStock c5Order.items dbStock5) ∧
    c5Order.prescription = none :=
  C5_amended true true 7 1 [(1, 2)] none 0 dbStock5 c5Order
    [(1, { medSample with stock := 3 })] rfl

/-- C6 counterexample. The claim says a successful approve leaves a non-null
`confirmationDeadline` and registers a confirmation-expiry job. Approving
`pendingOrder` succeeds into `approved` but its
`customerConfirmationEnd` is still `none`: `startCustomerConfirmationTimer`
is never invoked by `updateOrderStatus`. -/
theorem C6_counterexample :
    (updateOrderStatus pendingOrder OrderStatus.approved none).map
        (fun o' => (o'.status, o'.approvalTimers.customerConfirmationEnd)) =
      Except.ok (OrderStatus.approved, none) := rfl

/-- C6 amended: approve (`updateOrderStatus` to `'approved'`) is legal only
from `pending_approval`; on success the order is `approved` but the
controller performs NO timer work: it neither cancels the approval-expiry
job nor registers a confirmation-expiry job, and the whole `approvalTimers`
sub-document — the confirmation deadline included — is left exactly as it
was (so it stays null unless something else had set it). -/
theorem C6_amended (o : Order) (note : Option String) :
    (updateOrderStatus o OrderStatus.approved note).map
        (fun o' => (o'.status, o'.approvalTimers)) =
      (if o.status = OrderStatus.pending_approval
       then Except.ok (OrderStatus.approved, o.approvalTimers)
       else Except.error UpdateStatusError.invalidStatusTransition) := by
  cases ho : o.status <;> simp [updateOrderStatus, validTransitions, ho, Except.map]

/-- C7 counterexample. The claim says startup recovery fires the callback of
every persisted job whose deadline already passed. Recovering at t=10 an
order whose approval deadline was t=5 and which is still `pending_approval`
arms no timer and fires nothing: the firing is lost. -/
theorem C7_counterexample :
    restoreOrderTimers [(42, pendingOrder)] 10 = ⟨[], []⟩ := rfl

/-- C7 amended: startup recovery never fires any callback immediately; it
only re-arms an in-memory timer for a persisted `pending_approval` (or
`approved`) order whose approval deadline is strictly in the future, and an
order whose deadline has already passed is not selected at all, so its
firing is silently dropped across a restart. -/
theorem C7_amended (id : Nat) (o : Order) (now e : Int)
    (hstat : o.status = OrderStatus.pending_approval)
    (hend : o.approvalTimers.pharmacyApprovalEnd = some e) :
    (∀ (orders : List (Nat × Order)) (t : Int),
      (restoreOrderTimers orders t).firedNow = []) ∧
    (now < e → restoreOrderTimers [(id, o)] now = ⟨[id], []⟩) ∧
    (e ≤ now → restoreOrderTimers [(id, o)] now = ⟨[], []⟩) := by
  refine ⟨fun orders t => rfl, ?_, ?_⟩
  · intro hlt
    simp [restoreOrderTimers, hstat, hend, hlt]
  · intro hle
    simp [restoreOrderTimers, hstat, hend, not_lt.mpr hle]

/-- C7 amended, witness: recovering the same persisted order before its
deadline arms its timer (and still fires nothing). -/
theorem C7_amended_witness :
    restoreOrderTimers [(42, pendingOrder)] 0 = ⟨[42], []⟩ :=
  (C7_amended 42 pendingOrder 0 5 rfl rfl).2.1 (by decide)

/-- C8 counterexample. The claim says the auto-cancellation is recorded in
the order's timeline. Firing the timeout callback on `pendingOrder`
cancels it and writes the system note into `notes.systemNote`, but appends
nothing to `timeline` (still empty). -/
theorem C8_counterexample :
    (orderTimeoutCallback pendingOrder).status = OrderStatus.cancelled ∧
    (orderTimeoutCallback pendingOrder).notes.systemNote =
      some "Order auto-cancelled due to timeout" ∧
    (orderTimeoutCallback pendingOrder).timeline = [] :=
  ⟨rfl, rfl, rfl⟩

/-- C8 amended: the timeout callback re-checks that the order is still
`pending_approval`; if so it transitions it to `cancelled` and records the
auto-cancellation as a system-attributed note in `notes.systemNote` — NOT
as a timeline entry (the timeline is unchanged); if the order has already
left `pending_approval` the callback changes nothing. -/
theorem C8_amended (o : Order) :
    (o.status = OrderStatus.pending_approval →
      (orderTimeoutCallback o).status = OrderStatus.cancelled ∧
      (orderTimeoutCallback o).notes.systemNote =
        some "Order auto-cancelled due to timeout" ∧
      (orderTimeoutCallback o).timeline = o.timeline) ∧
    (o.status ≠ OrderStatus.pending_approval → orderTimeoutCallback o = o) := by
  constructor
  · intro h
    simp [orderTimeoutCallback, h]
  · intro h
    simp [orderTimeoutCallback, h]

/-- C8 amended, witness at the concrete pending order. -/
theorem C8_amended_witness :
    (orderTimeoutCallback pendingOrder).status = OrderStatus.cancelled ∧
    (orderTimeoutCallback pendingOrder).notes.systemNote =
      some "Order auto-cancelled due to timeout" ∧
    (orderTimeoutCallback pendingOrder).timeline = pendingOrder.timeline :=
  (C8_amended pendingOrder).1 rfl

/-- The spec's wording of the eligibility predicate, §4.2: `isRecurring &&
remainingRefills > 0 && now >= nextRefillDate`, stated independently of the
source's nested-if shape for the refinement comparison. -/
def checkRefillEligibleSpec (p : Prescription) (today : JDate) : Bool :=
  p.isRecurring && decide (0 < p.recurringDetails.remainingRefills) &&
    JDate.le p.recurringDetails.nextRefillDate today

/-- Eligibility implies the prescription is recurring. -/
theorem checkRefillStatus_isRecurring {p : Prescription} {d : JDate}
    (h : checkRefillStatus p d = true) : p.isRecurring = true := by
  unfold checkRefillStatus at h
  split at h
  · exact ‹p.isRecurring = true ∧ _›.1
  · exact absurd h (by simp)

/-- Source predicate and spec predicate agree everywhere. -/
theorem checkRefillStatus_eq_spec (p : Prescription) (d : JDate) :
    checkRefillStatus p d = checkRefillEligibleSpec p d := by
  unfold checkRefillStatus checkRefillEligibleSpec
  split
  · rename_i hc
    simp [hc.1, hc.2]
  · rename_i hc
    rcases p with ⟨ir, ⟨f, nd, rr⟩⟩
    cases ir
    · simp
    · simp only [Bool.true_and]
      have : ¬0 < rr := fun hpos => hc ⟨rfl, hpos⟩
      simp [Nat.le_zero.mp (Nat.not_lt.mp this)]

/-- A successful eligibility check makes `processRefill` mutate. -/
theorem processRefill_of_eligible {p : Prescription} {d : JDate}
    (h : checkRefillStatus p d = true) :
    processRefill p d = some (refillStep p d) := by
  simp [processRefill, refillStep, h]

/-- On an eligible call, `requestRefill` succeeds with the mutated state. -/
theorem requestRefill_of_eligible {p : Prescription} {d : JDate}
    (h : checkRefillStatus p d = true) :
    requestRefill p d = Except.ok (refillStep p d) := by
  unfold requestRefill
  rw [checkRefillStatus_isRecurring h, h]
  simp [refillStep]

/-- The state after an eligible refill: refills down by one, date advanced
by the configured frequency. -/
theorem refillStep_of_eligible {p : Prescription} {d : JDate}
    (h : checkRefillStatus p d = true) :
    refillStep p d =
      { p with recurringDetails := {
          frequency := p.recurringDetails.frequency,
          nextRefillDate := advanceNextRefillDate p.recurringDetails.frequency
            p.recurringDetails.nextRefillDate,
          remainingRefills := p.recurringDetails.remainingRefills - 1 } } := by
  simp [refillStep, processRefill, h]

/-- With no refills left, `requestRefill` always fails with the
not-eligible error, whatever the date. -/
theorem requestRefill_exhausted {p : Prescription} (d : JDate)
    (h : p.recurringDetails.remainingRefills = 0) :
    requestRefill p d = Except.error RefillError.notEligibleForRefill := by
  have hc : checkRefillStatus p d = false := by
    unfold checkRefillStatus
    split
    · rename_i hcond
      exact absurd h (Nat.pos_iff_ne_zero.mp hcond.2)
    · rfl
  unfold requestRefill
  rw [hc]
  simp

/-- Folding eligible refill calls: every call succeeds and the refill count
goes down to zero after exactly `remainingRefills` calls. -/
theorem applyRefills_spec (ds : List JDate) : ∀ p : Prescription,
    datesEligible p ds = true →
    p.recurringDetails.remainingRefills = ds.length →
    applyRefills p ds = Except.ok (ds.foldl refillStep p) ∧
    (ds.foldl refillStep p).recurringDetails.remainingRefills = 0 := by
  induction ds with
  | nil =>
    intro p _ h0
    exact ⟨rfl, h0⟩
  | cons d ds ih =>
    intro p helig hcount
    rw [datesEligible, Bool.and_eq_true] at helig
    obtain ⟨h1, h2⟩ := helig
    have hrem : (refillStep p d).recurringDetails.remainingRefills = ds.length := by
      rw [refillStep_of_eligible h1]
      simp [hcount]
    have hrec := ih (refillStep p d) h2 hrem
    refine ⟨?_, hrec.2⟩
    unfold applyRefills
    rw [requestRefill_of_eligible h1]
    exact hrec.1

/-- C9. The refill round trip, settled on the source `Prescription` methods:
(1) the source predicate `checkRefillStatus` coincides with the spec's pure
predicate `isRecurring && remainingRefills > 0 && today >= nextRefillDate`;
(2) an eligible `processRefill` decrements `remainingRefills` by one and
advances `nextRefillDate` by the configured frequency;
(3) that advance is calendar-aware (a month step keeps the day of month and
handles JS day-overflow normalization), witnessed on concrete dates;
(4) starting from `remainingRefills = n`, any `n` eligible calls all succeed
and exhaust the refills, and a further call — on any date whatsoever —
fails with `NotEligibleForRefill`. -/
theorem C9_refill_round_trip :
    (∀ (p : Prescription) (d : JDate),
      checkRefillStatus p d = checkRefillEligibleSpec p d) ∧
    (∀ (p : Prescription) (d : JDate), checkRefillStatus p d = true →
      processRefill p d = some (refillStep p d) ∧
      (refillStep p d).recurringDetails.remainingRefills =
        p.recurringDetails.remainingRefills - 1 ∧
      (refillStep p d).recurringDetails.nextRefillDate =
        advanceNextRefillDate p.recurringDetails.frequency
          p.recurringDetails.nextRefillDate) ∧
    (advanceNextRefillDate Frequency.monthly ⟨2023, 0, 15⟩ = ⟨2023, 1, 15⟩ ∧
     advanceNextRefillDate Frequency.monthly ⟨2023, 0, 31⟩ = ⟨2023, 2, 3⟩ ∧
     advanceNextRefillDate Frequency.quarterly ⟨2024, 10, 30⟩ = ⟨2025, 2, 2⟩) ∧
    (∀ (p : Prescription) (ds : List JDate) (d' : JDate),
      datesEligible p ds = true →
      p.recurringDetails.remainingRefills = ds.length →
      applyRefills p ds = Except.ok (ds.foldl refillStep p) ∧
      (ds.foldl refillStep p).recurringDetails.remainingRefills = 0 ∧
      requestRefill (ds.foldl refillStep p) d' =
        Except.error RefillError.notEligibleForRefill) := by
  refine ⟨checkRefillStatus_eq_spec, ?_, ⟨by decide, by decide, by decide⟩, ?_⟩
  · intro p d h
    refine ⟨processRefill_of_eligible h, ?_, ?_⟩ <;> rw [refillStep_of_eligible h]
  · intro p ds d' helig hcount
    obtain ⟨happ, hzero⟩ := applyRefills_spec ds p helig hcount
    exact ⟨happ, hzero, requestRefill_exhausted d' hzero⟩

/-- A daily-recurring prescription with two refills left, due Jan 1 2023. -/
def rxSample : Prescription :=
  { isRecurring := true,
    recurringDetails :=
      { frequency := Frequency.daily,
        nextRefillDate := ⟨2023, 0, 1⟩,
        remainingRefills := 2 } }

/-- C9 witness: two eligible daily refills exhaust `rxSample` and a third
call fails with the not-eligible error. -/
theorem C9_refill_round_trip_witness :
    applyRefills rxSample [⟨2023, 0, 1⟩, ⟨2023, 0, 2⟩] =
      Except.ok ([⟨2023, 0, 1⟩, ⟨2023, 0, 2⟩].foldl refillStep rxSample) ∧
    (([⟨2023, 0, 1⟩, ⟨2023, 0, 2⟩] : List JDate).foldl
        refillStep rxSample).recurringDetails.remainingRefills = 0 ∧
    requestRefill (([⟨2023, 0, 1⟩, ⟨2023, 0, 2⟩] : List JDate).foldl
        refillStep rxSample) ⟨2024, 5, 5⟩ =
      Except.error RefillError.notEligibleForRefill :=
  C9_refill_round_trip.2.2.2 rxSample [⟨2023, 0, 1⟩, ⟨2023, 0, 2⟩] ⟨2024, 5, 5⟩
    (by decide) (by decide)

/-- The single-pharmacy invariant: every item of the order references a
medicine whose catalog record belongs to the order's pharmacy. -/
def pharmacyInv (db : MedDb) (o : Order) : Prop :=
  ∀ item ∈ o.items, ∀ m : Medicine,
    dbFind db item.medicine = some m → m.pharmacy = o.pharmacy

/-- Looking up after a point update. -/
theorem dbFind_dbUpdate (db : MedDb) (id : MedId) (f : Medicine → Medicine)
    (j : MedId) :
    dbFind (dbUpdate db id f) j =
      (if j = id then (dbFind db j).map f else dbFind db j) := by
  induction db with
  | nil => simp [dbFind, dbUpdate]
  | cons kv rest ih =>
    simp only [dbUpdate, List.map_cons] at *
    by_cases h1 : kv.1 = id
    · by_cases h2 : kv.1 = j
      · have hj : j = id := by rw [← h2, h1]
        simp [dbFind, h1, h2, hj]
      · have hj : ¬j = id := fun hh => h2 (h1.trans hh.symm)
        have hij : ¬id = j := fun hh => h2 (h1.trans hh)
        simp [dbFind, h1, h2, hj, hij, ih]
    · by_cases h2 : kv.1 = j
      · have hj : ¬j = id := fun hh => h1 (h2.trans hh)
        simp [dbFind, h1, h2, hj]
      · simp [dbFind, h1, h2, ih]

/-- The raw stock decrement changes no medicine's owning pharmacy. -/
theorem updateMedicineStock_find_pharmacy (items : List OrderItem) :
    ∀ (db : MedDb) (j : MedId),
      (dbFind (updateMedicineStock items db) j).map Medicine.pharmacy =
        (dbFind db j).map Medicine.pharmacy := by
  induction items with
  | nil => intro db j; rfl
  | cons i rest ih =>
    intro db j
    simp only [updateMedicineStock, List.foldl_cons] at ih ⊢
    rw [ih]
    by_cases hs : i.selected
    · simp only [hs, if_true, dbFind_dbUpdate]
      by_cases hj : j = i.medicine
      · simp only [hj, if_true]
        cases dbFind db i.medicine <;> rfl
      · simp [hj]
    · simp [hs]

/-- The stock restoration changes no medicine's owning pharmacy. -/
theorem restoreMedicineStock_find_pharmacy (items : List OrderItem) :
    ∀ (db : MedDb) (j : MedId),
      (dbFind (restoreMedicineStock items db) j).map Medicine.pharmacy =
        (dbFind db j).map Medicine.pharmacy := by
  induction items with
  | nil => intro db j; rfl
  | cons i rest ih =>
    intro db j
    simp only [restoreMedicineStock, List.foldl_cons] at ih ⊢
    rw [ih]
    by_cases hs : i.selected
    · simp only [hs, if_true, dbFind_dbUpdate]
      by_cases hj : j = i.medicine
      · simp only [hj, if_true]
        cases dbFind db i.medicine <;> rfl
      · simp [hj]
    · simp [hs]

/-- Every item emitted by the `createOrder` validation loop references a
medicine of the selected pharmacy. -/
theorem validateItems_ok_pharmacy (db : MedDb) (ph : PharmacyId) :
    ∀ (reqs : List (MedId × Nat)) (items : List OrderItem) (t d : Int),
      validateItems db ph reqs = Except.ok (items, t, d) →
      ∀ i ∈ items, ∀ m : Medicine,
        dbFind db i.medicine = some m → m.pharmacy = ph := by
  intro reqs
  induction reqs with
  | nil =>
    intro items t d h
    simp only [validateItems, Except.ok.injEq, Prod.mk.injEq] at h
    obtain ⟨h1, -⟩ := h
    subst h1
    intro i hi
    simp at hi
  | cons r rest ih =>
    obtain ⟨mid, qty⟩ := r
    intro items t d h
    unfold validateItems at h
    split at h
    · exact absurd h (by simp)
    · rename_i m0 hf
      split at h
      · exact absurd h (by simp)
      · split at h
        · exact absurd h (by simp)
        · rename_i hph hst
          split at h
          · exact absurd h (by simp)
          · rename_i tri items2 t2 d2 hv
            simp only [Except.ok.injEq, Prod.mk.injEq] at h
            obtain ⟨hitems, -, -⟩ := h
            subst hitems
            intro i hi m hm
            rcases List.mem_cons.mp hi with hhead | htail
            · subst hhead
              have hm2 : dbFind db mid = some m := hm
              rw [hf] at hm2
              injection hm2 with hmm
              subst hmm
              exact not_ne_iff.mp hph
            · exact ih items2 t2 d2 hv i htail m hm

/-- Lemma: `calculateAmounts` rewrites only the amount fields. -/
theorem calculateAmounts_items (o : Order) : (calculateAmounts o).items = o.items := rfl

/-- Lemma: `calculateAmounts` keeps the order's pharmacy. -/
theorem calculateAmounts_pharmacy (o : Order) :
    (calculateAmounts o).pharmacy = o.pharmacy := rfl

/-- Lemma: `modifyItem` can only produce items whose medicine reference already
occurs at the same position, provided the update function keeps it. -/
theorem modifyItem_medicine {f : OrderItem → OrderItem}
    (hf : ∀ i, (f i).medicine = i.medicine) :
    ∀ (its : List OrderItem) (n : Nat),
      ∀ x ∈ modifyItem its n f, ∃ y ∈ its, x.medicine = y.medicine := by
  intro its
  induction its with
  | nil => intro n x hx; simp [modifyItem] at hx
  | cons i is ih =>
    intro n x hx
    cases n with
    | zero =>
      rcases List.mem_cons.mp hx with h | h
      · exact ⟨i, List.mem_cons_self i is, by rw [h, hf]⟩
      · exact ⟨x, List.mem_cons_of_mem i h, rfl⟩
    | succ n =>
      rcases List.mem_cons.mp hx with h | h
      · exact ⟨i, List.mem_cons_self i is, by rw [h]⟩
      · obtain ⟨y, hy, hxy⟩ := ih n x h
        exact ⟨y, List.mem_cons_of_mem i hy, hxy⟩

/-- A pointwise property of medicine references survives the whole
`updateCart` item-rewriting fold. -/
theorem foldlUpdates_medicine {P : MedId → Prop} :
    ∀ (ups : List CartItemUpdate) (acc : List OrderItem),
      (∀ x ∈ acc, P x.medicine) →
      ∀ x ∈ ups.foldl
        (fun its u => modifyItem its u.idx
          (fun i => { i with selected := u.selected,
                             quantity := u.quantity.getD i.quantity }))
        acc,
      P x.medicine := by
  intro ups
  induction ups with
  | nil => intro acc hacc x hx; exact hacc x hx
  | cons u us ih =>
    intro acc hacc x hx
    rw [List.foldl_cons] at hx
    refine ih _ ?_ x hx
    intro y hy
    obtain ⟨z, hz, hyz⟩ :=
      @modifyItem_medicine
        (fun i => { i with selected := u.selected,
                           quantity := u.quantity.getD i.quantity })
        (fun i => rfl) acc u.idx y hy
    rw [hyz]
    exact hacc z hz

/-- Lemma: `addToCart` rejects a medicine from a pharmacy other than the existing
cart's pharmacy. -/
theorem addToCart_foreign_rejected (cart : Order) (cust : UserId) (mid : MedId)
    (qty : Nat) (db : MedDb) (m : Medicine)
    (hf : dbFind db mid = some m) (hact : m.status = MedStatus.active)
    (hstock : (qty : Int) ≤ m.stock) (hne : m.pharmacy ≠ cart.pharmacy) :
    addToCart (some cart) cust mid qty db =
      Except.error AddToCartError.differentPharmacy := by
  simp only [addToCart, hf]
  rw [if_neg (fun hc => hc.elim (fun hs => hs hact) (fun hl => not_lt.mpr hstock hl))]
  simp only [addToCartCore, resolveCart]
  rw [if_pos (Ne.symm hne)]

/-- The add-or-bump tail of `addToCart` preserves the invariant of the cart
it is given. -/
theorem addToCartCore_inv (cart : Order) (m : Medicine) (mid : MedId)
    (qty : Nat) (db : MedDb) (o' : Order)
    (hf : dbFind db mid = some m)
    (hok : addToCartCore cart m mid qty = Except.ok o')
    (hinv : pharmacyInv db cart) :
    pharmacyInv db o' := by
  unfold addToCartCore at hok
  split at hok
  · exact absurd hok (by simp)
  · rename_i hph
    have hcp : cart.pharmacy = m.pharmacy := not_ne_iff.mp hph
    simp only [Except.ok.injEq] at hok
    subst hok
    intro i hi mm hmm
    rw [calculateAmounts_pharmacy]
    simp only [calculateAmounts_items] at hi
    split at hi
    · obtain ⟨y, hy, hiy⟩ := List.mem_map.mp hi
      have hmed : i.medicine = y.medicine := by
        subst hiy
        by_cases hym : y.medicine = mid <;> simp [hym]
      rw [hmed] at hmm
      exact hinv y hy mm hmm
    · rcases List.mem_append.mp hi with hold | hnew
      · exact hinv i hold mm hmm
      · simp at hnew
        subst hnew
        have hmm2 : dbFind db mid = some mm := hmm
        rw [hf] at hmm2
        injection hmm2 with hmmm
        subst hmmm
        exact hcp.symm

/-- A successful `addToCart` establishes (fresh cart) or preserves (existing
cart) the single-pharmacy invariant. -/
theorem addToCart_ok_inv (cartOpt : Option Order) (cust : UserId) (mid : MedId)
    (qty : Nat) (db : MedDb) (o' : Order)
    (hok : addToCart cartOpt cust mid qty db = Except.ok o')
    (hinv : ∀ c, cartOpt = some c → pharmacyInv db c) :
    pharmacyInv db o' := by
  unfold addToCart at hok
  split at hok
  · exact absurd hok (by simp)
  · rename_i m hf
    split at hok
    · exact absurd hok (by simp)
    · rename_i hguard
      refine addToCartCore_inv (resolveCart cartOpt cust m.pharmacy) m mid qty
        db o' hf hok ?_
      cases cartOpt with
      | none =>
        intro i hi mm hmm
        simp [resolveCart] at hi
      | some c => exact hinv c rfl

/-- A successful `createOrder` builds an order satisfying the
single-pharmacy invariant against the resulting medicine collection. -/
theorem createOrder_ok_inv (pharmacyOk slotOk : Bool) (cust : UserId)
    (ph : PharmacyId) (reqs : List (MedId × Nat)) (presc : Option Nat)
    (now : Int) (db : MedDb) (o : Order) (db' : MedDb)
    (h : createOrder pharmacyOk slotOk cust ph reqs presc now db =
      Except.ok (o, db')) :
    pharmacyInv db' o := by
  obtain ⟨hph, -, -, hdb, hval⟩ :=
    createOrder_ok_spec pharmacyOk slotOk cust ph reqs presc now db o db' h
  intro i hi m hm
  have hmap : (dbFind db' i.medicine).map Medicine.pharmacy =
      (dbFind db i.medicine).map Medicine.pharmacy := by
    rw [hdb]
    split
    · rfl
    · exact updateMedicineStock_find_pharmacy o.items db i.medicine
  rw [hm] at hmap
  cases hdf : dbFind db i.medicine with
  | none => rw [hdf] at hmap; simp at hmap
  | some m1 =>
    rw [hdf] at hmap
    simp only [Option.map_some'] at hmap
    injection hmap with hmp
    rw [hph, hmp]
    exact validateItems_ok_pharmacy db ph reqs o.items o.totalAmount
      o.discountedAmount hval i hi m1 hdf

/-- Lemma: `confirmOrder` preserves the single-pharmacy invariant (it rewrites only
status, timeline and stock numbers). -/
theorem confirmOrder_preserves_inv (o : Order) (now : Int) (db : MedDb)
    (hinv : pharmacyInv db o) :
    pharmacyInv (confirmOrder o now db).db (confirmOrder o now db).order := by
  unfold confirmOrder
  split
  · exact hinv
  · split
    · intro i hi m hm
      exact hinv i hi m hm
    · intro i hi m hm
      have hm2 : dbFind (updateMedicineStock o.items db) i.medicine = some m := hm
      have hmap := updateMedicineStock_find_pharmacy o.items db i.medicine
      rw [hm2] at hmap
      cases hdf : dbFind db i.medicine with
      | none => rw [hdf] at hmap; simp at hmap
      | some m1 =>
        rw [hdf] at hmap
        simp only [Option.map_some'] at hmap
        injection hmap with hmp
        rw [hmp]
        exact hinv i hi m1 hdf

/-- Lemma: `cancelOrder` preserves the single-pharmacy invariant (the restore
branch is dead and the order's items and pharmacy are untouched). -/
theorem cancelOrder_preserves_inv (o : Order) (reason : String) (db : MedDb)
    (hinv : pharmacyInv db o) :
    pharmacyInv (cancelOrder o reason db).db (cancelOrder o reason db).order := by
  unfold cancelOrder
  split
  · exact fun i hi m hm => hinv i hi m hm
  · exact hinv

/-- The pharmacy progress/approve endpoint rewrites neither the items nor
the pharmacy of an order. -/
theorem updateOrderStatus_preserves (o : Order) (s : OrderStatus)
    (note : Option String) (o' : Order)
    (h : updateOrderStatus o s note = Except.ok o') :
    o'.pharmacy = o.pharmacy ∧ o'.items = o.items := by
  unfold updateOrderStatus at h
  split at h
  · simp only [Except.ok.injEq] at h
    subst h
    exact ⟨rfl, rfl⟩
  · exact absurd h (by simp)

/-- The timeout callback rewrites neither the items nor the pharmacy. -/
theorem orderTimeoutCallback_preserves (o : Order) :
    (orderTimeoutCallback o).pharmacy = o.pharmacy ∧
    (orderTimeoutCallback o).items = o.items := by
  unfold orderTimeoutCallback
  split
  · exact ⟨rfl, rfl⟩
  · exact ⟨rfl, rfl⟩

/-- Lemma: `updateCart` rewrites only quantities and tick-boxes, so the invariant
survives it. -/
theorem updateCart_ok_inv (o : Order) (ups : List CartItemUpdate) (o' : Order)
    (h : updateCart o ups = Except.ok o') (db : MedDb)
    (hinv : pharmacyInv db o) :
    pharmacyInv db o' := by
  unfold updateCart at h
  split at h
  · exact absurd h (by simp)
  · simp only [Except.ok.injEq] at h
    subst h
    intro i hi m hm
    rw [calculateAmounts_pharmacy]
    rw [calculateAmounts_items] at hi
    exact @foldlUpdates_medicine
      (fun mid => ∀ mm : Medicine, dbFind db mid = some mm → mm.pharmacy = o.pharmacy)
      ups o.items (fun x hx mm hmm => hinv x hx mm hmm) i hi m hm

/-- C10. The implicit single-pharmacy invariant, in eight parts:
(1) `addToCart` rejects a medicine whose pharmacy differs from the existing
cart's pharmacy; (2) any cart produced by a successful `addToCart` satisfies
the invariant (fresh carts adopt the medicine's pharmacy, existing carts
must already match); (3) an order built by a successful `createOrder`
satisfies the invariant against the post-checkout medicine collection, the
per-item `medicine.pharmacy === pharmacy` validation being what enforces it;
(4)–(5) `confirmOrder` and `cancelOrder` preserve the invariant — they never
rewrite the items' medicine references or the order's pharmacy, and their
stock updates never move a medicine between pharmacies; (6) the pharmacy
status endpoint and (7) the timeout callback keep both the items and the
pharmacy of the order; (8) `updateCart` rewrites only quantities and
`selected` flags, so the invariant survives it as well. -/
theorem C10_single_pharmacy_invariant :
    (∀ (cart : Order) (cust : UserId) (mid : MedId) (qty : Nat) (db : MedDb)
       (m : Medicine), dbFind db mid = some m → m.status = MedStatus.active →
       (qty : Int) ≤ m.stock → m.pharmacy ≠ cart.pharmacy →
       addToCart (some cart) cust mid qty db =
         Except.error AddToCartError.differentPharmacy) ∧
    (∀ (cartOpt : Option Order) (cust : UserId) (mid : MedId) (qty : Nat)
       (db : MedDb) (o' : Order),
       addToCart cartOpt cust mid qty db = Except.ok o' →
       (∀ c, cartOpt = some c → pharmacyInv db c) → pharmacyInv db o') ∧
    (∀ (pharmacyOk slotOk : Bool) (cust : UserId) (ph : PharmacyId)
       (reqs : List (MedId × Nat)) (presc : Option Nat) (now : Int)
       (db : MedDb) (o : Order) (db' : MedDb),
       createOrder pharmacyOk slotOk cust ph reqs presc now db =
         Except.ok (o, db') → pharmacyInv db' o) ∧
    (∀ (o : Order) (now : Int) (db : MedDb), pharmacyInv db o →
       pharmacyInv (confirmOrder o now db).db (confirmOrder o now db).order) ∧
    (∀ (o : Order) (reason : String) (db : MedDb), pharmacyInv db o →
       pharmacyInv (cancelOrder o reason db).db (cancelOrder o reason db).order) ∧
    (∀ (o : Order) (s : OrderStatus) (note : Option String) (o' : Order),
       updateOrderStatus o s note = Except.ok o' →
       o'.pharmacy = o.pharmacy ∧ o'.items = o.items) ∧
    (∀ o : Order, (orderTimeoutCallback o).pharmacy = o.pharmacy ∧
       (orderTimeoutCallback o).items = o.items) ∧
    (∀ (o : Order) (ups : List CartItemUpdate) (o' : Order) (db : MedDb),
       updateCart o ups = Except.ok o' → pharmacyInv db o → pharmacyInv db o') :=
  ⟨addToCart_foreign_rejected, addToCart_ok_inv, createOrder_ok_inv,
   confirmOrder_preserves_inv, cancelOrder_preserves_inv,
   updateOrderStatus_preserves, orderTimeoutCallback_preserves,
   fun o ups o' db h hinv => updateCart_ok_inv o ups o' h db hinv⟩

/-- An empty cart belonging to pharmacy 2. -/
def cartPh2 : Order :=
  { customer := 7, pharmacy := 2, items := [], status := OrderStatus.cart }

/-- C10 witness: adding pharmacy-1 medicine 1 to a pharmacy-2 cart is
rejected. -/
theorem C10_single_pharmacy_invariant_witness :
    addToCart (some cartPh2) 7 1 1 dbSample =
      Except.error AddToCartError.differentPharmacy :=
  C10_single_pharmacy_invariant.1 cartPh2 7 1 1 dbSample medSample rfl rfl
    (by decide) (by decide)

end Pharma
